import Mathlib

/-!
Verification of the XDS110 MCP server core against its specification.

The development shallowly embeds the Python sources:
* `xds110_mcp_server/knowledge/motor_control.py` (fault pattern engine),
* `src/generic/map_parser_poc.py` (symbol table resolver),
* `src/ui/single_session_connector.py` (batch transaction protocol),
* `src/ui/unified_dash_connector.py` (telemetry monitoring loop),
* `src/ui/xds110_dash_connector.py` (consumer-facing write),
* `xds110_mcp_server/tools/variable_monitor.py` (change detection).

Python machine floats are embedded as rationals (`ℚ`); the non-finite
floats `inf`/`nan` are outside the model and are noted where relevant.
-/

namespace XDS110

/-! ## Python runtime values

Values flowing through variable snapshots: Python `None`, `bool`, `int`,
`float` (embedded as `ℚ`) and `str`. -/

inductive PyVal : Type where
  | none : PyVal
  | bool (b : Bool) : PyVal
  | int (n : ℤ) : PyVal
  | float (q : ℚ) : PyVal
  | str (s : String) : PyVal
  deriving DecidableEq

/-- The numeric content of a value, when Python's `isinstance(v, (int, float))`
holds.  Python `bool` is a subclass of `int`, so booleans are numeric. -/
def PyVal.numVal : PyVal → Option ℚ
  | .bool b => some (if b then 1 else 0)
  | .int n => some (n : ℚ)
  | .float q => some q
  | _ => Option.none

/-- Lexicographic code-point order on strings, as Python compares `str`. -/
def strLt : List Char → List Char → Bool
  | [], [] => false
  | [], _ :: _ => true
  | _ :: _, [] => false
  | a :: as, b :: bs =>
    if a.val < b.val then true
    else if a.val = b.val then strLt as bs
    else false

/-- Python `==` on the embedded values: numeric kinds compare by value
(`True == 1`, `1 == 1.0`), strings compare as strings, `None == None`,
and everything else is unequal. -/
def pyEq : PyVal → PyVal → Bool
  | .str a, .str b => a == b
  | .none, .none => true
  | a, b =>
    match a.numVal, b.numVal with
    | some x, some y => x == y
    | _, _ => false

/-- Python `a >= b`; `Option.none` models a `TypeError` (e.g. comparing a
string with a number, or `None` with anything). -/
def pyGe (a b : PyVal) : Option Bool :=
  match a.numVal, b.numVal with
  | some x, some y => some (decide (y ≤ x))
  | _, _ =>
    match a, b with
    | .str s, .str t => some (!strLt s.toList t.toList)
    | _, _ => Option.none

/-- Python `a <= b`; `Option.none` models a `TypeError`. -/
def pyLe (a b : PyVal) : Option Bool :=
  match a.numVal, b.numVal with
  | some x, some y => some (decide (x ≤ y))
  | _, _ =>
    match a, b with
    | .str s, .str t => some (!strLt t.toList s.toList)
    | _, _ => Option.none

/-! ## Association lists standing for Python dicts -/

/-- `dict.get(k)`: the binding of `k`, if any (a Python dict holds at most
one binding per key; the lists built below keep keys unique). -/
def lookupA {α : Type} : List (String × α) → String → Option α
  | [], _ => Option.none
  | p :: tl, k => if p.1 = k then some p.2 else lookupA tl k

/-- `dict[k] = v`: replace the binding of `k` in place if present, else
append a fresh binding (Python dicts keep the original insertion slot). -/
def updateA {α : Type} : List (String × α) → String → α → List (String × α)
  | [], k, v => [(k, v)]
  | p :: tl, k, v => if p.1 = k then (k, v) :: tl else p :: updateA tl k v

/-! ## Python numeric string parsing

One parser models CPython's `float(str)` grammar: optional surrounding
whitespace, an optional sign, then either a decimal literal (integer part,
optional fraction, optional exponent, with single underscores allowed
between digits) or one of the keywords `inf`/`infinity`/`nan`
(case-insensitively).  `int(str)` accepts whitespace, sign and an
underscore-separated digit run only. -/

/-- The whitespace characters stripped by Python's numeric constructors
and by `str.strip()`. -/
def isPySpace (c : Char) : Bool :=
  c = ' ' || c = '\t' || c = '\n' || c = '\r' || c = '\x0b' || c = '\x0c'

/-- Consume `(digit | '_' digit)*`, returning the digits read (underscores
elided) and the unread remainder. -/
def chompD : List Char → (List Char × List Char)
  | [] => ([], [])
  | [c] => if c.isDigit then ([c], []) else ([], [c])
  | c :: d :: cs =>
    if c.isDigit then
      let r := chompD (d :: cs)
      (c :: r.1, r.2)
    else if c = '_' && d.isDigit then
      let r := chompD cs
      (d :: r.1, r.2)
    else ([], c :: d :: cs)

/-- A digit run: a leading digit, then `chompD`.  `Option.none` when the
input does not start with a digit. -/
def takeUDigits : List Char → Option (List Char × List Char)
  | c :: cs => if c.isDigit then some (chompD (c :: cs)) else Option.none
  | [] => Option.none

/-- An optional leading `+`/`-`; returns the sign and the remainder. -/
def readSign : List Char → (ℤ × List Char)
  | '+' :: cs => (1, cs)
  | '-' :: cs => (-1, cs)
  | cs => (1, cs)

/-- Numeric value of a digit list (most significant first). -/
def digitsVal (ds : List Char) : ℕ :=
  ds.foldl (fun a c => 10 * a + (c.toNat - 48)) 0

/-- An optional exponent part `("e"|"E") sign? digits`; when the exponent
is absent or malformed nothing is consumed and the exponent is `0`. -/
def expOpt (cs : List Char) : ℤ × List Char :=
  match cs with
  | c :: cs' =>
    if c = 'e' || c = 'E' then
      let s := readSign cs'
      match takeUDigits s.2 with
      | some (ds, r) => (s.1 * (digitsVal ds : ℤ), r)
      | Option.none => (0, cs)
    else (0, cs)
  | [] => (0, cs)

/-- Case-insensitively strip the keyword `kw` from the front of `cs`. -/
def stripKwCI : List Char → List Char → Option (List Char)
  | [], cs => some cs
  | _ :: _, [] => Option.none
  | k :: ks, c :: cs => if c.toLower = k then stripKwCI ks cs else Option.none

/-- The value denoted by a Python float literal. -/
inductive PyFloatLit : Type where
  | fin (q : ℚ) : PyFloatLit
  | inf : PyFloatLit
  | ninf : PyFloatLit
  | nan : PyFloatLit
  deriving DecidableEq

/-- The rational denoted by sign, integer digits, fraction digits and a
decimal exponent. -/
def mkRat10 (sgn : ℤ) (ids fds : List Char) (ex : ℤ) : ℚ :=
  (sgn : ℚ) * ((digitsVal ids : ℚ) + (digitsVal fds : ℚ) / (10 : ℚ) ^ fds.length)
    * (10 : ℚ) ^ ex

/-- The keyword alternatives `inf`/`infinity`/`nan` after the sign. -/
def floatKwTail (sgn : ℤ) (cs : List Char) : Option PyFloatLit :=
  match (stripKwCI "infinity".toList cs).orElse
      (fun _ => stripKwCI "inf".toList cs) with
  | some r =>
    if r.all isPySpace then some (if sgn < 0 then .ninf else .inf)
    else Option.none
  | Option.none =>
    match stripKwCI "nan".toList cs with
    | some r => if r.all isPySpace then some .nan else Option.none
    | Option.none => Option.none

/-- The optional fraction part after the integer digits: a dot followed
by an optional digit run; anything else consumes nothing. -/
def fracPart : List Char → (List Char × List Char)
  | '.' :: cs' =>
    (match takeUDigits cs' with
      | some (ds, r) => (ds, r)
      | Option.none => ([], cs'))
  | r => ([], r)

/-- After ingesting the digits: the optional exponent, then only trailing
whitespace may remain. -/
def floatAfterDigits (sgn : ℤ) (ids : List Char)
    (fr : List Char × List Char) : Option PyFloatLit :=
  if (expOpt fr.2).2.all isPySpace then
    some (.fin (mkRat10 sgn ids fr.1 (expOpt fr.2).1))
  else Option.none

/-- A decimal literal after the sign: integer part, optional fraction,
optional exponent, then only trailing whitespace; or a fraction-first
literal `.digits`. -/
def floatNumTail (sgn : ℤ) (cs : List Char) : Option PyFloatLit :=
  match takeUDigits cs with
  | some (ids, r1) => floatAfterDigits sgn ids (fracPart r1)
  | Option.none =>
    match cs with
    | '.' :: cs' =>
      match takeUDigits cs' with
      | some (fds, r2) => floatAfterDigits sgn [] (fds, r2)
      | Option.none => Option.none
    | _ => Option.none

/-- Dispatch on the first character after the sign: a keyword form starts
with a letter, a numeric form with a digit or a dot. -/
def floatDispatch (sg : ℤ × List Char) : Option PyFloatLit :=
  match sg.2 with
  | c :: _ =>
    if c.isAlpha then floatKwTail sg.1 sg.2 else floatNumTail sg.1 sg.2
  | [] => Option.none

/-- CPython's `float(s)`: `Option.none` models a `ValueError`. -/
def pyFloatParse (s : String) : Option PyFloatLit :=
  floatDispatch (readSign (s.toList.dropWhile isPySpace))

/-- Whether `float(s)` succeeds. -/
def pyFloatOk (s : String) : Bool :=
  (pyFloatParse s).isSome

/-- The digit run after the sign, then only trailing whitespace. -/
def intTail (sgn : ℤ) (cs : List Char) : Option ℤ :=
  match takeUDigits cs with
  | some (ds, r) =>
    if r.all isPySpace then some (sgn * digitsVal ds) else Option.none
  | Option.none => Option.none

/-- CPython's `int(s)` (base 10): `Option.none` models a `ValueError`. -/
def pyIntParse (s : String) : Option ℤ :=
  intTail (readSign (s.toList.dropWhile isPySpace)).1
    (readSign (s.toList.dropWhile isPySpace)).2

/-- Whether `int(s)` succeeds. -/
def pyIntOk (s : String) : Bool :=
  (pyIntParse s).isSome

/-- `float(v)` on a runtime value, as used by the fault engine's `diff`
comparison: numeric kinds convert directly; strings go through the float
grammar (non-finite results are outside the rational model and yield
`Option.none`); `None` raises `TypeError` (`Option.none`). -/
def pyFloatNum : PyVal → Option ℚ
  | .bool b => some (if b then 1 else 0)
  | .int n => some (n : ℚ)
  | .float q => some q
  | .str s =>
    match pyFloatParse s with
    | some (.fin q) => some q
    | _ => Option.none
  | .none => Option.none

/-! ## Fault pattern engine

Embedding of `MotorControlKnowledge` from
`xds110_mcp_server/knowledge/motor_control.py`: the condition dictionaries,
the five built fault patterns, `_pattern_matches` and
`analyze_fault_patterns`. -/

/-- One condition dictionary of a fault pattern.  The Python code stores a
plain dict; the keys used are `variable`, `operator` (absent means `==`),
`value` (absent in the built `diff` condition), `compare_to` and
`threshold`. -/
structure Condition : Type where
  varName : String
  op : Option String
  value : Option PyVal
  compareTo : Option String
  threshold : Option ℚ
  deriving DecidableEq

/-- Condition with only `variable` and `value`, the most common shape. -/
def condEq (v : String) (x : PyVal) : Condition :=
  ⟨v, Option.none, some x, Option.none, Option.none⟩

/-- Condition with an explicit `operator`. -/
def condOp (v : String) (o : String) (x : PyVal) : Condition :=
  ⟨v, some o, some x, Option.none, Option.none⟩

/-- `FaultPattern` dataclass. -/
structure FaultPattern : Type where
  name : String
  description : String
  conditions : List Condition
  severity : String
  recommendations : List String
  deriving DecidableEq

/-- One iteration of the condition loop in `_pattern_matches`, including
the exception behaviour of the surrounding `try`: a missing snapshot
variable, a missing `value` key (`KeyError`), a `TypeError` from an order
comparison or a `ValueError`/`TypeError` from `float()` all make the
pattern non-matching.  An operator string outside the five handled ones
falls through every branch, leaving the condition satisfied. -/
def evalCondition (c : Condition) (data : List (String × PyVal)) : Bool :=
  let current := (lookupA data c.varName).getD PyVal.none
  if current = PyVal.none then false
  else
    match c.value with
    | Option.none => false
    | some expected =>
      match c.op.getD "==" with
      | "==" => pyEq current expected
      | "!=" => !pyEq current expected
      | ">=" => (pyGe current expected).getD false
      | "<=" => (pyLe current expected).getD false
      | "diff" =>
        let cmp :=
          (match c.compareTo with
            | some nm => lookupA data nm
            | Option.none => Option.none).getD PyVal.none
        if cmp = PyVal.none then false
        else
          match pyFloatNum current, pyFloatNum cmp with
          | some x, some y => decide (c.threshold.getD (1 / 100) ≤ |x - y|)
          | _, _ => false
      | _ => true

/-- `MotorControlKnowledge._pattern_matches`: every condition must hold. -/
def patternMatches (p : FaultPattern) (data : List (String × PyVal)) : Bool :=
  p.conditions.all (fun c => evalCondition c data)

/-- First pattern built by `_build_fault_patterns`. -/
def motorHummingPattern : FaultPattern where
  name := "motor_humming_bypass_alignment"
  description := "Motor hums but doesn't spin during bypass alignment"
  conditions :=
    [ condEq "debug_bypass.bypass_alignment_called" (.bool true),
      condOp "debug_bypass.bypass_electrical_angle" "!=" (.float 0),
      condEq "motorVars_M1.angleFOC_rad" (.float 0),
      condEq "motorVars_M1.motorState" (.int 1) ]
  severity := "warning"
  recommendations :=
    [ "Initialize FOC angle with bypass electrical angle value",
      "Check if motor alignment current is appropriate (typically 0.1A)",
      "Verify encoder selection (pin 20 for absolute, pin 21 for quadrature)" ]

/-- Second pattern: calibration required. -/
def calibrationRequiredPattern : FaultPattern where
  name := "calibration_required"
  description := "Motor requires calibration before operation"
  conditions := [condEq "motorVars_M1.faultMtrNow.bit.needsCalibration" (.int 1)]
  severity := "critical"
  recommendations :=
    [ "Run calibration sequence (commands 64-67) before attempting motor control",
      "Ensure motor is mechanically free to move during calibration",
      "Verify encoder connections and functionality" ]

/-- Third pattern: initialization required. -/
def initRequiredPattern : FaultPattern where
  name := "initialization_required"
  description := "Motor system requires initialization"
  conditions := [condEq "motorVars_M1.faultMtrNow.bit.obakeNeedsInit" (.int 1)]
  severity := "critical"
  recommendations :=
    [ "Send initialization command (command 84) to clear needsInit flag",
      "Verify system startup sequence completed properly",
      "Check for hardware initialization issues" ]

/-- Fourth pattern: no current command. -/
def noCurrentPattern : FaultPattern where
  name := "no_current_command"
  description := "Motor will not move - no current being commanded"
  conditions :=
    [ condEq "motorVars_M1.Idq_out_A.value[0]" (.float 0),
      condEq "motorVars_M1.Idq_out_A.value[1]" (.float 0),
      condOp "motorVars_M1.motorState" ">=" (.int 2) ]
  severity := "warning"
  recommendations :=
    [ "Enable debug bypass mode (debug_bypass.debug_enabled = 1)",
      "Set appropriate command in debug_bypass.command structure",
      "Verify flux current setting (motorVars_M1.fluxCurrent_A > 0)" ]

/-- Fifth pattern: encoder position inconsistency.  Its single condition
dict has keys `variable`, `operator = "diff"`, `compare_to` and
`threshold` but no `value` key. -/
def encoderInconsistencyPattern : FaultPattern where
  name := "encoder_position_inconsistency"
  description := "Absolute and incremental encoders show different positions"
  conditions :=
    [ ⟨"motorVars_M1.absPosition_rad", some "diff", Option.none,
        some "motorVars_M1.angleENC_rad", some (1 / 10)⟩ ]
  severity := "warning"
  recommendations :=
    [ "Check encoder calibration and zero position",
      "Verify encoder mechanical coupling",
      "Recalibrate encoder offset if necessary" ]

/-- `_build_fault_patterns()`, in declaration order. -/
def faultPatterns : List FaultPattern :=
  [ motorHummingPattern, calibrationRequiredPattern, initRequiredPattern,
    noCurrentPattern, encoderInconsistencyPattern ]

/-- `MotorControlKnowledge.analyze_fault_patterns`: append each matching
pattern, preserving declaration order. -/
def analyzeFaultPatterns (data : List (String × PyVal)) : List FaultPattern :=
  faultPatterns.foldl
    (fun acc p => if patternMatches p data then acc ++ [p] else acc) []

/-- Severity rank used by the specification's ordering requirement
(critical before warning before info). -/
def sevRank (s : String) : ℕ :=
  if s = "critical" then 0 else if s = "warning" then 1 else 2

/-- The variables a condition names: its `variable` key and, for a `diff`
condition, its `compare_to` key. -/
def conditionVars (c : Condition) : List String :=
  c.varName ::
    (if c.op.getD "==" = "diff" then c.compareTo.toList else [])

/-- The encoder `diff` condition with a `value` entry present (its content
is irrelevant to the `diff` branch): used to isolate the missing `value`
key as the only reason the built condition can never be satisfied. -/
def fixedEncoderCondition : Condition :=
  ⟨"motorVars_M1.absPosition_rad", some "diff", some (.int 0),
    some "motorVars_M1.angleENC_rad", some (1 / 10)⟩

/-- A snapshot satisfying every condition of the humming pattern and of
the calibration pattern (the shape of `test_basic.py`'s fault-analysis
test data, with a nonzero electrical angle). -/
def hummingCalibSnapshot : List (String × PyVal) :=
  [ ("debug_bypass.bypass_alignment_called", .bool true),
    ("debug_bypass.bypass_electrical_angle", .float 2),
    ("motorVars_M1.angleFOC_rad", .float 0),
    ("motorVars_M1.motorState", .int 1),
    ("motorVars_M1.faultMtrNow.bit.needsCalibration", .int 1) ]

/-- A snapshot mapping only `needsCalibration` to 1. -/
def calibOnlySnapshot : List (String × PyVal) :=
  [("motorVars_M1.faultMtrNow.bit.needsCalibration", .int 1)]

/-- A snapshot in which the two encoder position sources disagree by a full
radian, far above the pattern's 0.1 threshold. -/
def encoderDivergedSnapshot : List (String × PyVal) :=
  [ ("motorVars_M1.absPosition_rad", .float 1),
    ("motorVars_M1.angleENC_rad", .float 0) ]

/-! ## Symbol table resolver

Embedding of `MapFileParser` from `src/generic/map_parser_poc.py`.  A
symbol line is matched by `re.match(r'\d+\s+([0-9a-f]+)\s+(\w+)', line)`;
since the character classes on each side of every boundary are disjoint,
the regex is equivalent to the deterministic maximal-munch scan below.
The build iterates over the lines of the GLOBAL SYMBOLS section in order
and assigns `self.symbols[name] = Symbol(...)` for each match whose name
is not a skipped system symbol. -/

/-- `[0-9a-f]` (the pattern is lowercase-only; `re.IGNORECASE` is not set
in `_parse_global_symbols`). -/
def isHexLower (c : Char) : Bool :=
  c.isDigit || ('a' ≤ c && c ≤ 'f')

/-- `\w` restricted to ASCII. -/
def isWordChar (c : Char) : Bool :=
  c.isAlphanum || c = '_'

/-- Value of one hex digit. -/
def hexDigitVal (c : Char) : ℕ :=
  if c.isDigit then c.toNat - 48 else c.toNat - 87

/-- `int(address_str, 16)`. -/
def hexValue (ds : List Char) : ℕ :=
  ds.foldl (fun a c => 16 * a + hexDigitVal c) 0

/-- One symbol line: page digits, whitespace, hex address, whitespace,
identifier; anything after the identifier is ignored. -/
def parseSymbolLine (cs : List Char) : Option (String × ℕ) :=
  let p1 := cs.span Char.isDigit
  if p1.1.isEmpty then Option.none
  else
    let p2 := p1.2.span isPySpace
    if p2.1.isEmpty then Option.none
    else
      let p3 := p2.2.span isHexLower
      if p3.1.isEmpty then Option.none
      else
        let p4 := p3.2.span isPySpace
        if p4.1.isEmpty then Option.none
        else
          let p5 := p4.2.span isWordChar
          if p5.1.isEmpty then Option.none
          else some (String.mk p5.1, hexValue p3.1)

/-- `name.startswith('__') or name.startswith('$')`. -/
def skipSystemSymbol (n : String) : Bool :=
  ("__".toList).isPrefixOf n.toList || ("$".toList).isPrefixOf n.toList

/-- One loop iteration of `_parse_global_symbols`:
`self.symbols[name] = Symbol(name, address)` for a matching, non-system
line. -/
def symStep (tbl : List (String × ℕ)) (l : List Char) : List (String × ℕ) :=
  match parseSymbolLine l with
  | some (n, a) => if skipSystemSymbol n then tbl else updateA tbl n a
  | Option.none => tbl

/-- `_parse_global_symbols`: fold the section's lines over the symbol
dict. -/
def buildSymbols (lines : List (List Char)) (init : List (String × ℕ)) :
    List (String × ℕ) :=
  lines.foldl symStep init

/-- `MapFileParser.find_symbol` / `Resolve`: `self.symbols.get(name)`. -/
def findSymbol (tbl : List (String × ℕ)) (n : String) : Option ℕ :=
  lookupA tbl n

/-- One step of the last-occurrence scan: remember the address whenever
the line is a symbol line bearing `name`. -/
def occStep (name : String) (acc : Option ℕ) (l : List Char) : Option ℕ :=
  match parseSymbolLine l with
  | some (n, a) => if n == name then some a else acc
  | Option.none => acc

/-- The address of the last symbol line bearing `name` — the
specification's words for the duplicate policy ("the address of the last
occurrence of `name` in the artifact"), stated for comparison with what
the loader's table actually answers. -/
def lastSymbolOccurrence (lines : List (List Char)) (name : String) :
    Option ℕ :=
  lines.foldl (occStep name) Option.none

/-- Structured load failure: `parse()` raises `FileNotFoundError` before
touching the symbol table when the artifact is missing.  For an artifact
that exists, the section grammar matches what it can, so parsing always
succeeds. -/
inductive LoadError : Type where
  | fileNotFound : LoadError
  deriving DecidableEq

/-- `MapFileParser.parse`: fail before any mutation when the artifact is
missing, else rebuild the table from the artifact's symbol lines on top of
the current dict. -/
def parseLoad (artifact : Option (List (List Char)))
    (st : List (String × ℕ)) : Except LoadError (List (String × ℕ)) :=
  match artifact with
  | Option.none => .error .fileNotFound
  | some lines => .ok (buildSymbols lines st)

/-- The symbol table visible to `find_symbol` after a `parse()` call:
unchanged when the call raised. -/
def stateAfterLoad (artifact : Option (List (List Char)))
    (st : List (String × ℕ)) : List (String × ℕ) :=
  match parseLoad artifact st with
  | .ok t => t
  | .error _ => st

/-! ## Batch transaction protocol

Embedding of `SingleSessionXDS110.read_variables_batch` from
`src/ui/single_session_connector.py`: the requested names are filtered to
those present in the symbol table, the generated script emits
`VAR:<name>=<value>` / `ERR:<name>:<reason>` markers for exactly the
filtered names, and stdout is scanned line by line. -/

/-- A value stored in the result dict for a marker line: `float s` stands
for Python `float(s)`, `int s` for `int(s)`, `str s` for the raw string. -/
inductive Coerced : Type where
  | float (s : String) : Coerced
  | int (s : String) : Coerced
  | str (s : String) : Coerced
  deriving DecidableEq

/-- The connector's value coercion (lines 166–173): `try: float(value_str)`
with the raw string kept on `ValueError`. -/
def connectorCoerce (s : String) : Coerced :=
  if pyFloatOk s then .float s else .str s

/-- The specification's coercion precedence, stated from its words for
comparison with `connectorCoerce`: float, else integer, else raw string. -/
def specCoercionPolicy (s : String) : Coerced :=
  if pyFloatOk s then .float s
  else if pyIntOk s then .int s
  else .str s

/-- Python `line.strip()`, on the character list. -/
def pyStripL (cs : List Char) : List Char :=
  ((cs.dropWhile isPySpace).reverse.dropWhile isPySpace).reverse

/-- Python `cs.split(sep, 1)`: `Option.none` when `sep` does not occur. -/
def splitFirst (sep : Char) : List Char → Option (List Char × List Char)
  | [] => Option.none
  | c :: cs =>
    if c = sep then some ([], cs)
    else (splitFirst sep cs).map (fun p => (c :: p.1, p.2))

/-- One iteration of the stdout scan: a stripped `VAR:` line with an `=`
yields a coerced value, a stripped `ERR:` line with a `:` yields a `None`
entry, and every other line is diagnostic noise. -/
def lineEntry (line : String) : Option (String × Option Coerced) :=
  let l := pyStripL line.toList
  if ("VAR:".toList).isPrefixOf l then
    match splitFirst '=' (l.drop 4) with
    | some (n, v) => some (String.mk n, some (connectorCoerce (String.mk v)))
    | Option.none => Option.none
  else if ("ERR:".toList).isPrefixOf l then
    match splitFirst ':' (l.drop 4) with
    | some (n, _) => some (String.mk n, Option.none)
    | Option.none => Option.none
  else Option.none

/-- One fold step of the stdout scan. -/
def stdoutStep (acc : List (String × Option Coerced)) (l : String) :
    List (String × Option Coerced) :=
  match lineEntry l with
  | some (n, v) => updateA acc n v
  | Option.none => acc

/-- The stdout scan of `read_variables_batch`. -/
def parseStdout (lines : List String) : List (String × Option Coerced) :=
  lines.foldl stdoutStep []

/-- Outcome of the engine subprocess: captured stdout lines, a
`subprocess.TimeoutExpired`, or another exception. -/
inductive EngineOutcome : Type where
  | ok (stdoutLines : List String) : EngineOutcome
  | timeout : EngineOutcome
  | failed : EngineOutcome

/-- `SingleSessionXDS110.read_variables_batch`: empty request or no
resolvable name short-circuits to `{}`; a timeout or an exception yields
`{}`; otherwise stdout is scanned. -/
def read_variables_batch (symbols : List (String × ℕ)) (names : List String)
    (eng : EngineOutcome) : List (String × Option Coerced) :=
  if names.isEmpty then []
  else
    let valid := names.filter (fun n => (lookupA symbols n).isSome)
    if valid.isEmpty then []
    else
      match eng with
      | .ok lines => parseStdout lines
      | .timeout => []
      | .failed => []

/-- The generated script prints markers only for the filtered (resolved)
variables, so a faithful engine run only produces marker lines whose name
was scripted. -/
def stdoutRespectsScript (valid : List String) (lines : List String) : Prop :=
  ∀ l ∈ lines, ∀ n v, lineEntry l = some (n, v) → n ∈ valid

/-! ## Telemetry monitoring loop

Embedding of `UnifiedDashConnector._monitor_loop` from
`src/ui/unified_dash_connector.py`, restricted to its effect on
`current_values`. -/

/-- Outcome of one monitoring cycle: the dict returned by the batch read
(`failed` covers the `{}` returned on timeout or batch error), or an
exception raised inside the cycle body. -/
inductive CycleOutcome : Type where
  | ok (results : List (String × PyVal)) : CycleOutcome
  | failed : CycleOutcome
  | raised : CycleOutcome

/-- `if value is not None: current_values[var_name] = value`. -/
def applyReading (cur : List (String × PyVal)) (nv : String × PyVal) :
    List (String × PyVal) :=
  if nv.2 = PyVal.none then cur else updateA cur nv.1 nv.2

/-- The update pass over one batch result (an empty dict updates
nothing, matching the `if results:` guard). -/
def runCycle (cur : List (String × PyVal)) (results : List (String × PyVal)) :
    List (String × PyVal) :=
  results.foldl applyReading cur

/-- One iteration of the `while self.monitoring` loop: a failed batch read
and a raised exception both leave `current_values` untouched. -/
def stepCycle (cur : List (String × PyVal)) :
    CycleOutcome → List (String × PyVal)
  | .ok results => runCycle cur results
  | .failed => cur
  | .raised => cur

/-- The monitoring loop over a finite trace of cycle outcomes. -/
def monitorLoop (cur : List (String × PyVal)) (outcomes : List CycleOutcome) :
    List (String × PyVal) :=
  outcomes.foldl stepCycle cur

/-! ## Change detection

Embedding of `VariableMonitorTool._value_changed` from
`xds110_mcp_server/tools/variable_monitor.py`. -/

/-- `_value_changed`: non-numeric operands compare by `!=`; numeric
operands use `abs(curr) > threshold` when the previous value equals zero
and the relative change `abs(curr - prev) / abs(prev)` otherwise. -/
def value_changed (prev curr : PyVal) (threshold : ℚ) : Bool :=
  match prev.numVal, curr.numVal with
  | some p, some c =>
    if p = 0 then decide (threshold < |c|)
    else decide (threshold < |c - p| / |p|)
  | _, _ => !pyEq prev curr

/-! ## Consumer-facing write

Embedding of `XDS110Interface.write_variable` from
`src/ui/xds110_dash_connector.py`: the generated script writes
`int(value)` to the resolved address and success is the presence of the
`WRITE:SUCCESS` sentinel in the captured stdout. -/

/-- Python `int(v)` on a float: truncation toward zero. -/
def intTrunc (q : ℚ) : ℤ :=
  Int.tdiv q.num q.den

/-- The single write statement of the generated script. -/
structure WriteScript : Type where
  address : ℕ
  value : ℤ
  deriving DecidableEq

/-- Script generation: `debugSession.memory.writeData(0, addr, int(value), 32)`. -/
def genWriteScript (addr : ℕ) (v : ℚ) : WriteScript :=
  ⟨addr, intTrunc v⟩

/-- The success sentinel scanned for in stdout. -/
def writeSuccessSentinel : List Char :=
  "WRITE:SUCCESS".toList

/-- Outcome of the write subprocess: captured stdout, or an exception
(timeout included). -/
inductive WriteOutcome : Type where
  | ok (stdout : List Char) : WriteOutcome
  | failed : WriteOutcome

/-- `XDS110Interface.write_variable`: not connected or unresolved name
returns `False` without generating a script; otherwise the script writing
`int(value)` to the resolved address is generated and
`"WRITE:SUCCESS" in result.stdout` decides the result, with `False` on an
exception.  The first component is the script handed to the engine. -/
def write_variable (connected : Bool) (symbols : List (String × ℕ))
    (name : String) (v : ℚ) (out : WriteOutcome) :
    Option WriteScript × Bool :=
  if !connected then (Option.none, false)
  else
    match lookupA symbols name with
    | Option.none => (Option.none, false)
    | some addr =>
      (some (genWriteScript addr v),
        match out with
        | .ok stdout => decide (writeSuccessSentinel <:+: stdout)
        | .failed => false)

theorem lookupA_updateA {α : Type} (tbl : List (String × α)) (k k' : String)
    (v : α) :
    lookupA (updateA tbl k v) k' = if k' = k then some v else lookupA tbl k' := by
  induction tbl with
  | nil =>
    simp only [updateA, lookupA]
    by_cases h : k' = k
    · subst h; simp
    · rw [if_neg fun hc => h hc.symm, if_neg h]
  | cons p tl ih =>
    simp only [updateA]
    by_cases hk : p.1 = k
    · rw [if_pos hk]
      simp only [lookupA]
      by_cases h : k' = k
      · subst h; rw [if_pos rfl, if_pos rfl]
      · rw [if_neg fun hc => h hc.symm, if_neg h,
          if_neg (show ¬ p.1 = k' from by rw [hk]; exact fun hc => h hc.symm)]
    · rw [if_neg hk]
      simp only [lookupA]
      by_cases hp : p.1 = k'
      · rw [if_pos hp, if_neg (show ¬ k' = k from fun hc => hk (by rw [hp, hc])),
          if_pos hp]
      · rw [if_neg hp, ih]
        by_cases h : k' = k
        · rw [if_pos h, if_pos h]
        · rw [if_neg h, if_neg h, if_neg hp]

theorem foldl_append_filter {α : Type} (pred : α → Bool) (l : List α)
    (acc : List α) :
    l.foldl (fun a p => if pred p then a ++ [p] else a) acc
      = acc ++ l.filter pred := by
  induction l generalizing acc with
  | nil => simp
  | cons x xs ih =>
    by_cases h : pred x <;>
      simp [List.foldl_cons, h, ih, List.filter_cons]

theorem evalCondition_eq_false_of_absent (c : Condition)
    (data : List (String × PyVal)) (v : String) (hv : v ∈ conditionVars c)
    (hnone : lookupA data v = Option.none) :
    evalCondition c data = false := by
  unfold conditionVars at hv
  rcases List.mem_cons.mp hv with hv | hv
  · subst hv
    unfold evalCondition
    rw [hnone]
    simp
  · by_cases hop : c.op.getD "==" = "diff"
    · rw [if_pos hop] at hv
      have hcv : c.compareTo = some v := by
        cases hct : c.compareTo with
        | none => rw [hct] at hv; simp [Option.toList] at hv
        | some w =>
          rw [hct] at hv
          simp only [Option.toList, List.mem_singleton] at hv
          rw [hv]
      unfold evalCondition
      by_cases hcur : (lookupA data c.varName).getD PyVal.none = PyVal.none
      · simp [hcur]
      · simp only [if_neg hcur]
        cases hval : c.value with
        | none => rfl
        | some e =>
          split
          · rfl
          · split
            · rename_i heq; rw [heq] at hop; exact absurd hop (by decide)
            · rename_i heq; rw [heq] at hop; exact absurd hop (by decide)
            · rename_i heq; rw [heq] at hop; exact absurd hop (by decide)
            · rename_i heq; rw [heq] at hop; exact absurd hop (by decide)
            · simp [hcv, hnone]
            · rename_i hne
              exact absurd hop (by simp_all)
    · rw [if_neg hop] at hv
      simp at hv

/-- C1 counterexample: on a snapshot matching both the humming pattern
(severity `warning`, declared first) and the calibration pattern (severity
`critical`, declared second), `analyze_fault_patterns` returns the
`warning` pattern ranked before the `critical` one, so the result is not
ordered severity-first. -/
theorem c1_counterexample :
    analyzeFaultPatterns hummingCalibSnapshot
        = [motorHummingPattern, calibrationRequiredPattern]
      ∧ motorHummingPattern.severity = "warning"
      ∧ calibrationRequiredPattern.severity = "critical" :=
  ⟨by decide, rfl, rfl⟩

/-- C1 (amended): `analyze_fault_patterns` returns exactly the fault
patterns all of whose conditions hold, in declaration order (no severity
sorting); for a snapshot mapping only
`motorVars_M1.faultMtrNow.bit.needsCalibration` to 1, the result is
exactly the `calibration_required` pattern, whose severity is
`critical` (so it is trivially ranked first in that call). -/
theorem c1_declaration_order :
    (∀ data : List (String × PyVal),
        analyzeFaultPatterns data
          = faultPatterns.filter (fun p => patternMatches p data))
      ∧ analyzeFaultPatterns calibOnlySnapshot = [calibrationRequiredPattern]
      ∧ calibrationRequiredPattern.severity = "critical" := by
  refine ⟨fun data => ?_, by decide, rfl⟩
  unfold analyzeFaultPatterns
  rw [foldl_append_filter]
  simp

/-- C6: the built `diff` condition has no `value` entry, so
`condition["value"]` raises a `KeyError` that the blanket `except` turns
into a non-match: the encoder-inconsistency pattern never matches — not
even on a snapshot whose two position sources differ by a full radian,
ten times the pattern's threshold.  The same condition with any `value`
entry present is satisfied on that snapshot, isolating the missing key as
the only cause. -/
theorem c6_encoder_pattern_dead :
    patternMatches encoderInconsistencyPattern encoderDivergedSnapshot = false
      ∧ (∀ data : List (String × PyVal),
          patternMatches encoderInconsistencyPattern data = false)
      ∧ evalCondition fixedEncoderCondition encoderDivergedSnapshot = true := by
  refine ⟨by decide, fun data => ?_, ?_⟩
  · simp only [patternMatches, encoderInconsistencyPattern, List.all_cons,
      List.all_nil, Bool.and_true]
    by_cases h :
        (lookupA data "motorVars_M1.absPosition_rad").getD PyVal.none
          = PyVal.none <;>
      simp [evalCondition, h]
  · simp only [evalCondition, fixedEncoderCondition, encoderDivergedSnapshot,
      lookupA, pyFloatNum, Option.getD,
      if_pos (rfl :
        ("motorVars_M1.absPosition_rad" : String)
          = "motorVars_M1.absPosition_rad"),
      if_neg (by decide :
        ¬ ("motorVars_M1.absPosition_rad" : String)
            = "motorVars_M1.angleENC_rad")]
    norm_num
    exact ⟨by decide, by decide⟩

/-- C8: a pattern whose conditions name a variable absent from the
snapshot is evaluated as non-matching (fail-closed), and a pattern is
matching only when every one of its conditions evaluates as satisfied
against the snapshot. -/
theorem c8_fail_closed :
    ∀ (p : FaultPattern) (data : List (String × PyVal)),
      ((∃ c ∈ p.conditions, ∃ v ∈ conditionVars c,
          lookupA data v = Option.none) → patternMatches p data = false)
        ∧ (patternMatches p data = true →
            ∀ c ∈ p.conditions, evalCondition c data = true) := by
  intro p data
  constructor
  · rintro ⟨c, hc, v, hv, hnone⟩
    have hf := evalCondition_eq_false_of_absent c data v hv hnone
    cases hall : patternMatches p data
    · rfl
    · have h2 := hall
      unfold patternMatches at h2
      rw [List.all_eq_true] at h2
      have := h2 c hc
      rw [hf] at this
      exact absurd this (by decide)
  · intro hall c hc
    unfold patternMatches at hall
    rw [List.all_eq_true] at hall
    exact hall c hc

/-- C8 witness: the calibration pattern does not match the empty
snapshot, by the fail-closed direction at a concrete input. -/
theorem c8_witness :
    patternMatches calibrationRequiredPattern [] = false :=
  (c8_fail_closed calibrationRequiredPattern []).1
    ⟨condEq "motorVars_M1.faultMtrNow.bit.needsCalibration" (.int 1),
      by decide, "motorVars_M1.faultMtrNow.bit.needsCalibration",
      by decide, rfl⟩

theorem occStep_foldl (name : String) (ls : List (List Char)) :
    ∀ acc, ls.foldl (occStep name) acc
      = (ls.foldl (occStep name) Option.none).elim acc some := by
  induction ls with
  | nil => intro acc; simp [Option.elim]
  | cons l t ih =>
    intro acc
    simp only [List.foldl_cons]
    rw [ih (occStep name acc l), ih (occStep name Option.none l)]
    cases h : t.foldl (occStep name) Option.none with
    | some a => simp [Option.elim]
    | none =>
      simp only [Option.elim]
      unfold occStep
      cases hp : parseSymbolLine l with
      | none => simp [Option.elim]
      | some pr =>
        obtain ⟨n, a⟩ := pr
        by_cases hc : (n == name) = true <;>
          simp [hc, Option.elim]

theorem lookupA_buildSymbols (lines : List (List Char)) :
    ∀ init name, skipSystemSymbol name = false →
      lookupA (buildSymbols lines init) name
        = (lastSymbolOccurrence lines name).elim (lookupA init name) some := by
  induction lines with
  | nil =>
    intro init name _
    simp [buildSymbols, lastSymbolOccurrence, Option.elim]
  | cons l t ih =>
    intro init name hname
    unfold buildSymbols lastSymbolOccurrence
    simp only [List.foldl_cons]
    rw [show t.foldl symStep (symStep init l)
        = buildSymbols t (symStep init l) from rfl]
    rw [ih (symStep init l) name hname]
    rw [occStep_foldl name t (occStep name Option.none l)]
    unfold lastSymbolOccurrence
    cases h : t.foldl (occStep name) Option.none with
    | some a => simp [h, Option.elim]
    | none =>
      simp only [h, Option.elim]
      unfold symStep occStep
      cases hp : parseSymbolLine l with
      | none => simp [Option.elim]
      | some pr =>
        obtain ⟨n, a⟩ := pr
        by_cases hskip : skipSystemSymbol n
        · have hn : ¬ n = name := by
            intro hc
            rw [hc, hname] at hskip
            exact Bool.false_ne_true hskip
          simp [hskip, hn, Option.elim]
        · by_cases hn : n = name
          · subst hn
            simp [hskip, lookupA_updateA, Option.elim]
          · simp [hskip, hn, lookupA_updateA, Option.elim,
              Ne.symm hn]

theorem lookupA_buildSymbols_skipped (lines : List (List Char)) :
    ∀ init name, skipSystemSymbol name = true →
      lookupA (buildSymbols lines init) name = lookupA init name := by
  induction lines with
  | nil => intro init name _; rfl
  | cons l t ih =>
    intro init name hname
    unfold buildSymbols
    simp only [List.foldl_cons]
    rw [show t.foldl symStep (symStep init l)
        = buildSymbols t (symStep init l) from rfl]
    rw [ih (symStep init l) name hname]
    unfold symStep
    cases hp : parseSymbolLine l with
    | none => rfl
    | some pr =>
      obtain ⟨n, a⟩ := pr
      by_cases hskip : skipSystemSymbol n
      · simp [hskip]
      · have hn : ¬ name = n := by
          intro hc
          rw [← hc] at hskip
          exact hskip hname
        simp [hskip, lookupA_updateA, hn]

/-- C3 counterexample: the symbol `__dup` appears on two symbol lines, so
the claim promises that the table maps it to the last occurrence's
address `0xf4`, but the loader skips `__`-prefixed system symbols
entirely and `find_symbol` returns `None`. -/
theorem c3_counterexample :
    lastSymbolOccurrence
        ["0   0000f0   __dup".toList, "0   0000f4   __dup".toList] "__dup"
        = some 244
      ∧ findSymbol
          (buildSymbols
            ["0   0000f0   __dup".toList, "0   0000f4   __dup".toList] [])
          "__dup" = Option.none :=
  ⟨by decide, by decide⟩

/-- C3 (amended): the duplicate-name policy is deterministic — for every
sequence of symbol lines, a name not prefixed by `__` or `$` resolves to
the address of the last symbol line bearing it, while a `__`/`$`-prefixed
name is skipped by the loader altogether and resolves to nothing even
when it occurs on symbol lines. -/
theorem c3_nonsystem_last_wins :
    ∀ (lines : List (List Char)) (name : String),
      findSymbol (buildSymbols lines []) name
        = if skipSystemSymbol name then Option.none
          else lastSymbolOccurrence lines name := by
  intro lines name
  unfold findSymbol
  by_cases hskip : skipSystemSymbol name
  · rw [if_pos hskip, lookupA_buildSymbols_skipped lines [] name hskip]
    rfl
  · rw [if_neg hskip,
      lookupA_buildSymbols lines [] name (Bool.eq_false_iff.mpr hskip)]
    cases lastSymbolOccurrence lines name <;> simp [Option.elim, lookupA]

/-- C9: a `Load` whose artifact is missing fails with a structured error
and leaves the previously loaded table intact, so every `Resolve` after
the failed reload answers as before; an artifact that exists always
parses (the section grammar matches what it can), so the missing-file
case is the only failure. -/
theorem c9_failed_load_keeps_table :
    ∀ st : List (String × ℕ),
      parseLoad Option.none st = Except.error LoadError.fileNotFound
        ∧ (∀ name, findSymbol (stateAfterLoad Option.none st) name
            = findSymbol st name)
        ∧ (∀ lines, ∃ t, parseLoad (some lines) st = Except.ok t) := by
  intro st
  exact ⟨rfl, fun name => rfl, fun lines => ⟨buildSymbols lines st, rfl⟩⟩

theorem digit_not_alpha (c : Char) (h : c.isDigit = true) :
    c.isAlpha = false := by
  simp only [Char.isDigit, Bool.and_eq_true, decide_eq_true_eq, ge_iff_le] at h
  simp only [Char.isAlpha, Char.isUpper, Char.isLower, Bool.or_eq_false_iff,
    Bool.and_eq_false_iff, decide_eq_false_iff_not, ge_iff_le]
  obtain ⟨h1, h2⟩ := h
  rw [UInt32.le_def, BitVec.le_def] at h1 h2
  refine ⟨Or.inl ?_, Or.inl ?_⟩ <;>
    · intro hc
      rw [UInt32.le_def, BitVec.le_def] at hc
      simp at h1 h2 hc
      omega

theorem pySpace_cases (c : Char) (h : isPySpace c = true) :
    c = ' ' ∨ c = '\t' ∨ c = '\n' ∨ c = '\r' ∨ c = '\x0b' ∨ c = '\x0c' := by
  simp only [isPySpace, Bool.or_eq_true, decide_eq_true_eq] at h
  tauto

theorem fracPart_of_space_head (r : List Char) (hall : r.all isPySpace = true) :
    fracPart r = ([], r) := by
  cases r with
  | nil => rfl
  | cons c' t' =>
    have hc' : isPySpace c' = true := by
      simp [List.all_cons] at hall
      exact hall.1
    have hne : ¬ c' = '.' := by
      rcases pySpace_cases c' hc' with h|h|h|h|h|h <;> subst h <;> decide
    unfold fracPart
    split
    · rename_i cs' heq
      rw [List.cons.injEq] at heq
      exact absurd heq.1 hne
    · rfl

theorem expOpt_of_space_head (r : List Char) (hall : r.all isPySpace = true) :
    expOpt r = (0, r) := by
  cases r with
  | nil => rfl
  | cons c' t' =>
    have hc' : isPySpace c' = true := by
      simp [List.all_cons] at hall
      exact hall.1
    have hne : (c' = 'e' || c' = 'E') = false := by
      rcases pySpace_cases c' hc' with h|h|h|h|h|h <;> subst h <;> decide
    unfold expOpt
    simp [hne]

theorem takeUDigits_head (cs : List Char) (p : List Char × List Char)
    (h : takeUDigits cs = some p) :
    ∃ c t, cs = c :: t ∧ c.isDigit = true := by
  cases cs with
  | nil => exact absurd h (by simp [takeUDigits])
  | cons c t =>
    by_cases hd : c.isDigit
    · exact ⟨c, t, rfl, hd⟩
    · rw [takeUDigits, if_neg hd] at h
      exact absurd h (by simp)

theorem intTail_imp_floatNumTail (sgn : ℤ) (cs : List Char) (n : ℤ)
    (h : intTail sgn cs = some n) : (floatNumTail sgn cs).isSome = true := by
  unfold intTail at h
  split at h
  · rename_i ds r heq
    by_cases hall : r.all isPySpace
    · unfold floatNumTail
      rw [heq]
      show (floatAfterDigits sgn ds (fracPart r)).isSome = true
      unfold floatAfterDigits
      rw [fracPart_of_space_head r hall]
      rw [expOpt_of_space_head r hall]
      simp [hall]
    · rw [if_neg hall] at h
      exact absurd h (by simp)
  · exact absurd h (by simp)

/-- Every string accepted by `int(s)` is accepted by `float(s)`: the
`int` grammar is the digits-only fragment of the `float` grammar. -/
theorem pyIntOk_imp_pyFloatOk (s : String) (h : pyIntOk s = true) :
    pyFloatOk s = true := by
  unfold pyIntOk pyIntParse at h
  unfold pyFloatOk pyFloatParse floatDispatch
  cases hit : intTail (readSign (s.toList.dropWhile isPySpace)).1
      (readSign (s.toList.dropWhile isPySpace)).2 with
  | none => rw [hit] at h; exact absurd h (by simp)
  | some n =>
    have hfl := intTail_imp_floatNumTail _ _ n hit
    have hhead : ∃ c t,
        (readSign (s.toList.dropWhile isPySpace)).2 = c :: t
          ∧ c.isDigit = true := by
      unfold intTail at hit
      cases htd : takeUDigits (readSign (s.toList.dropWhile isPySpace)).2 with
      | none => rw [htd] at hit; exact absurd hit (by simp)
      | some pr => exact takeUDigits_head _ pr htd
    obtain ⟨c, t, hct, hcd⟩ := hhead
    rw [hct] at hfl ⊢
    simp [digit_not_alpha c hcd]
    rw [← hct] at hfl ⊢
    exact hfl

/-- C7: every value string extracted from a `VAR:` marker line is coerced
with the precedence float, then integer, then raw string — since every
integer-parseable string is float-parseable, the connector's
float-else-raw coercion realises exactly that policy — and the literal
edge cases behave as specified: `"0"`, `"-1"`, `"3.14"` and `"NaN"` parse
as floats while `"true"` stays a raw string. -/
theorem c7_coercion_precedence :
    (∀ s : String, connectorCoerce s = specCoercionPolicy s)
      ∧ connectorCoerce "0" = .float "0"
      ∧ connectorCoerce "-1" = .float "-1"
      ∧ connectorCoerce "3.14" = .float "3.14"
      ∧ connectorCoerce "true" = .str "true"
      ∧ connectorCoerce "NaN" = .float "NaN" := by
  refine ⟨fun s => ?_, by decide, by decide, by decide, by decide, by decide⟩
  unfold connectorCoerce specCoercionPolicy
  by_cases hf : pyFloatOk s
  · simp [hf]
  · have hi : pyIntOk s = false := by
      cases hio : pyIntOk s
      · rfl
      · exact absurd (pyIntOk_imp_pyFloatOk s hio) hf
    simp [hf, hi]

theorem stdoutStep_foldl_absent (n : String) :
    ∀ (lines : List String) (acc : List (String × Option Coerced)),
      (∀ l ∈ lines, ∀ v, ¬ lineEntry l = some (n, v)) →
      lookupA (lines.foldl stdoutStep acc) n = lookupA acc n := by
  intro lines
  induction lines with
  | nil => intro acc _; rfl
  | cons l t ih =>
    intro acc hno
    simp only [List.foldl_cons]
    rw [ih (stdoutStep acc l)
      (fun l' hl' v => hno l' (List.mem_cons_of_mem _ hl') v)]
    unfold stdoutStep
    cases he : lineEntry l with
    | none => rfl
    | some pr =>
      obtain ⟨m, v⟩ := pr
      have hm : ¬ m = n :=
        fun hc => hno l (List.mem_cons_self _ _) v (by rw [he, hc])
      rw [lookupA_updateA, if_neg (fun hc : n = m => hm hc.symm)]

theorem filter_unresolvable (symbols : List (String × ℕ)) (bogus : String)
    (hb : lookupA symbols bogus = Option.none) :
    ∀ names : List String,
      (names.filter (fun n => n != bogus)).filter
          (fun n => (lookupA symbols n).isSome)
        = names.filter (fun n => (lookupA symbols n).isSome) := by
  intro names
  induction names with
  | nil => rfl
  | cons n t ih =>
    by_cases hn : n = bogus
    · subst hn
      simp [List.filter_cons, hb, ih]
    · simp [List.filter_cons, hn, ih]

/-- C2 counterexample: a transaction naming one resolvable and one
unresolvable variable does not report a per-item `Error(NotFound)` for the
unresolvable name — the name is silently absent from the result, which
holds only the resolvable name's value. -/
theorem c2_counterexample :
    read_variables_batch [("motorVars_M1", 62848)]
        ["motorVars_M1", "bogus_var"]
        (.ok ["TARGET_READY", "VAR:motorVars_M1=1.0", "READING_COMPLETE",
          "SESSION_CLOSED"])
        = [("motorVars_M1", some (Coerced.float "1.0"))]
      ∧ lookupA [("motorVars_M1", 62848)] "bogus_var" = Option.none
      ∧ lookupA
          (read_variables_batch [("motorVars_M1", 62848)]
            ["motorVars_M1", "bogus_var"]
            (.ok ["TARGET_READY", "VAR:motorVars_M1=1.0", "READING_COMPLETE",
              "SESSION_CLOSED"]))
          "bogus_var" = Option.none :=
  ⟨by decide, by decide, by decide⟩

/-- C2 (amended): an unresolvable name in a transaction is silently
filtered out before the script is generated: the result is the same as if
the name had not been requested (so the transaction never fails wholesale
because of it), and — for any stdout a faithful engine run of the
generated script can produce — the result holds no entry of any kind for
the unresolvable name. -/
theorem c2_unresolved_names_dropped :
    ∀ (symbols : List (String × ℕ)) (names : List String)
      (eng : EngineOutcome) (bogus : String),
      lookupA symbols bogus = Option.none →
      (read_variables_batch symbols names eng
          = read_variables_batch symbols
              (names.filter (fun n => n != bogus)) eng)
        ∧ (∀ lines,
            stdoutRespectsScript
              (names.filter (fun n => (lookupA symbols n).isSome)) lines →
            lookupA (read_variables_batch symbols names (.ok lines)) bogus
              = Option.none) := by
  intro symbols names eng bogus hb
  constructor
  · unfold read_variables_batch
    by_cases h0 : names.isEmpty
    · rw [List.isEmpty_iff.mp h0]
      simp
    · rw [if_neg h0]
      by_cases h0' : (names.filter (fun n => n != bogus)).isEmpty
      · rw [if_pos h0']
        have hval : names.filter (fun n => (lookupA symbols n).isSome) = [] := by
          rw [← filter_unresolvable symbols bogus hb names,
            List.isEmpty_iff.mp h0']
          rfl
        rw [hval]
        simp
      · rw [if_neg h0']
        rw [filter_unresolvable symbols bogus hb names]
  · intro lines hresp
    unfold read_variables_batch
    by_cases h0 : names.isEmpty
    · rw [if_pos h0]; rfl
    · rw [if_neg h0]
      by_cases hv : (names.filter (fun n => (lookupA symbols n).isSome)).isEmpty
      · rw [if_pos hv]; rfl
      · rw [if_neg hv]
        unfold parseStdout
        rw [stdoutStep_foldl_absent bogus lines []]
        · rfl
        · intro l hl v he
          have hmem := hresp l hl bogus v he
          have := List.mem_filter.mp hmem
          rw [hb] at this
          exact absurd this.2 (by simp)

/-- C2 witness: a concrete transaction with one resolvable and one
unresolvable name produces the same result as the transaction without the
unresolvable name. -/
theorem c2_witness :
    read_variables_batch [("motorVars_M1", 62848)] ["motorVars_M1", "ghost"]
        .timeout
      = read_variables_batch [("motorVars_M1", 62848)]
          (["motorVars_M1", "ghost"].filter (fun n => n != "ghost"))
          .timeout :=
  (c2_unresolved_names_dropped [("motorVars_M1", 62848)]
    ["motorVars_M1", "ghost"] .timeout "ghost" (by decide)).1

theorem value_changed_float (p c t : ℚ) :
    value_changed (.float p) (.float c) t
      = if p = 0 then decide (t < |c|) else decide (t < |c - p| / |p|) :=
  rfl

/-- C4 counterexample: no positive epsilon makes the code's change test
equal to `|curr - prev| / max (|prev|) eps > t`: when `eps < 1` the two
disagree at `prev = 0` (the code compares `|curr|` against `t` directly),
and when `eps ≥ 1` they disagree at `prev = 1/2` (the code divides by
`|prev|`, not by `eps`). -/
theorem c4_counterexample :
    ¬ ∃ eps : ℚ, 0 < eps ∧ ∀ p c t : ℚ, 0 < t →
        (value_changed (.float p) (.float c) t
          = decide (t < |c - p| / max |p| eps)) := by
  rintro ⟨eps, heps, h⟩
  by_cases h1 : eps < 1
  · have hc := h 0 ((1 + eps) / 200) (1 / 100) (by norm_num)
    rw [value_changed_float, if_pos rfl, sub_zero] at hc
    have hcpos : (0 : ℚ) < (1 + eps) / 200 := by positivity
    rw [abs_of_pos hcpos, abs_zero, max_eq_right heps.le,
      decide_eq_decide] at hc
    have hL : ¬ (1 / 100 : ℚ) < (1 + eps) / 200 := by
      rw [not_lt, div_le_div_iff (by norm_num) (by norm_num)]
      linarith
    have hR : (1 / 100 : ℚ) < ((1 + eps) / 200) / eps := by
      rw [lt_div_iff heps, lt_div_iff (by norm_num : (0 : ℚ) < 200)]
      linarith
    exact hL (hc.mpr hR)
  · push_neg at h1
    have hc := h (1 / 2) (51 / 100) (1 / 100) (by norm_num)
    rw [value_changed_float, if_neg (by norm_num)] at hc
    have e1 : (51 / 100 - 1 / 2 : ℚ) = 1 / 100 := by norm_num
    rw [e1, abs_of_pos (by norm_num : (0 : ℚ) < 1 / 100),
      abs_of_pos (by norm_num : (0 : ℚ) < 1 / 2),
      max_eq_right (le_trans (by norm_num) h1), decide_eq_decide] at hc
    have hL : (1 / 100 : ℚ) < (1 / 100) / (1 / 2) := by norm_num
    have hR : ¬ (1 / 100 : ℚ) < (1 / 100) / eps := by
      rw [not_lt, div_le_iff heps]
      nlinarith
    exact hR (hc.mp hL)

/-- C4 (amended): for numeric readings the code flags a change exactly
when `|curr - prev| / |prev| > t` for `prev ≠ 0`, and exactly when
`|curr| > t` for `prev = 0` (there is no epsilon-guarded denominator);
non-numeric readings are flagged exactly when unequal.  Concretely, with
threshold 0.01, readings 0.500 then 0.503 are not flagged and 0.500 then
0.520 are flagged. -/
theorem c4_change_rule :
    (∀ p c t : ℚ,
        (value_changed (.float p) (.float c) t = true
          ↔ if p = 0 then t < |c| else t < |c - p| / |p|))
      ∧ (∀ (prev curr : PyVal) (t : ℚ),
          prev.numVal = Option.none ∨ curr.numVal = Option.none →
          (value_changed prev curr t = true ↔ ¬ pyEq prev curr = true))
      ∧ value_changed (.float (1 / 2)) (.float (503 / 1000)) (1 / 100) = false
      ∧ value_changed (.float (1 / 2)) (.float (13 / 25)) (1 / 100) = true := by
  refine ⟨fun p c t => ?_, fun prev curr t h => ?_, ?_, ?_⟩
  · rw [value_changed_float]
    by_cases hp : p = 0 <;> simp [hp]
  · rcases h with h | h
    · unfold value_changed
      rw [h]
      cases curr.numVal <;> simp
    · unfold value_changed
      rw [h]
      cases prev.numVal <;> simp
  · rw [value_changed_float, if_neg (by norm_num)]
    rw [decide_eq_false_iff_not, not_lt,
      show (503 / 1000 - 1 / 2 : ℚ) = 3 / 1000 by norm_num,
      abs_of_pos (by norm_num : (0 : ℚ) < 3 / 1000),
      abs_of_pos (by norm_num : (0 : ℚ) < 1 / 2)]
    norm_num
  · rw [value_changed_float, if_neg (by norm_num)]
    rw [decide_eq_true_eq,
      show (13 / 25 - 1 / 2 : ℚ) = 1 / 50 by norm_num,
      abs_of_pos (by norm_num : (0 : ℚ) < 1 / 50),
      abs_of_pos (by norm_num : (0 : ℚ) < 1 / 2)]
    norm_num

/-- C4 witness: the non-numeric clause at a concrete input — two distinct
strings are flagged as changed. -/
theorem c4_witness :
    value_changed (.str "idle") (.str "fault") 1 = true :=
  (c4_change_rule.2.1 (.str "idle") (.str "fault") 1 (Or.inl rfl)).mpr
    (by decide)

theorem runCycle_no_none :
    ∀ (results cur : List (String × PyVal)),
      (∀ n, ¬ lookupA cur n = some PyVal.none) →
      ∀ n, ¬ lookupA (runCycle cur results) n = some PyVal.none := by
  intro results
  induction results with
  | nil => intro cur h n; exact h n
  | cons rv t ih =>
    intro cur h n
    show ¬ lookupA ((rv :: t).foldl applyReading cur) n = some PyVal.none
    simp only [List.foldl_cons]
    apply ih
    intro m
    unfold applyReading
    by_cases hv : rv.2 = PyVal.none
    · rw [if_pos hv]; exact h m
    · rw [if_neg hv, lookupA_updateA]
      by_cases hm : m = rv.1
      · rw [if_pos hm]
        exact fun hc => hv (Option.some.inj hc)
      · rw [if_neg hm]; exact h m

/-- C5: a monitoring cycle whose batch read fails or times out (the read
returns `{}`) or whose body raises leaves every `Latest` value equal to
its pre-cycle value and the loop continues with the remaining cycles; and
a successful cycle never overwrites a `Latest` value with `None`, since
`None` readings are skipped. -/
theorem c5_failed_cycle_keeps_latest :
    ∀ (cur : List (String × PyVal)) (rest : List CycleOutcome),
      monitorLoop cur (CycleOutcome.failed :: rest) = monitorLoop cur rest
        ∧ monitorLoop cur (CycleOutcome.raised :: rest) = monitorLoop cur rest
        ∧ stepCycle cur CycleOutcome.failed = cur
        ∧ stepCycle cur CycleOutcome.raised = cur
        ∧ ((∀ n, ¬ lookupA cur n = some PyVal.none) →
            ∀ results n,
              ¬ lookupA (stepCycle cur (CycleOutcome.ok results)) n
                = some PyVal.none) :=
  fun cur rest =>
    ⟨rfl, rfl, rfl, rfl, fun h results n => runCycle_no_none results cur h n⟩

/-- C5 witness: a cycle that reads `None` for a watched variable leaves
its cached value intact rather than storing `None`. -/
theorem c5_witness :
    ¬ lookupA
        (stepCycle [("motorVars_M1.motorState", PyVal.int 2)]
          (CycleOutcome.ok [("motorVars_M1.motorState", PyVal.none)]))
        "motorVars_M1.motorState" = some PyVal.none :=
  (c5_failed_cycle_keeps_latest [("motorVars_M1.motorState", PyVal.int 2)]
      []).2.2.2.2
    (fun n => by
      unfold lookupA
      split
      · simp
      · simp [lookupA])
    [("motorVars_M1.motorState", PyVal.none)] "motorVars_M1.motorState"

theorem intTrunc_eq_trunc (v : ℚ) :
    intTrunc v = if 0 ≤ v then ⌊v⌋ else ⌈v⌉ := by
  unfold intTrunc
  by_cases h : 0 ≤ v
  · rw [if_pos h]
    have hnum : 0 ≤ v.num := Rat.num_nonneg.mpr h
    rw [Int.tdiv_eq_ediv hnum (Int.natCast_nonneg _)]
    conv_rhs => rw [← Rat.num_div_den v]
    rw [Rat.floor_intCast_div_natCast]
  · rw [if_neg h]
    have hneg : v.num ≤ 0 := by
      by_contra hc
      push_neg at hc
      exact h (Rat.num_nonneg.mp hc.le)
    rw [show Int.tdiv v.num ↑v.den = -Int.tdiv (-v.num) ↑v.den by
      rw [Int.neg_tdiv, neg_neg]]
    rw [Int.tdiv_eq_ediv (by omega) (Int.natCast_nonneg _)]
    rw [show -v.num = (-v).num from (Rat.num_neg_eq_neg_num v).symm,
      show (v.den : ℤ) = ((-v).den : ℤ) by rw [Rat.den_neg_eq_den]]
    rw [show ⌈v⌉ = -⌊-v⌋ by rw [Int.floor_neg, neg_neg]]
    congr 1
    rw [← Rat.floor_intCast_div_natCast ((-v).num) ((-v).den),
      Rat.num_div_den]

/-- C10: with a live connection and a resolved name, the generated write
script stores `int(v)` — `v` truncated toward zero, so a non-integral
value is never written exactly — and the call returns `True` exactly when
the engine's stdout contains the `WRITE:SUCCESS` sentinel. -/
theorem c10_write_truncates :
    ∀ (symbols : List (String × ℕ)) (name : String) (addr : ℕ) (v : ℚ)
      (stdout : List Char),
      lookupA symbols name = some addr →
      (write_variable true symbols name v (.ok stdout)).1
          = some ⟨addr, intTrunc v⟩
        ∧ intTrunc v = (if 0 ≤ v then ⌊v⌋ else ⌈v⌉)
        ∧ ((write_variable true symbols name v (.ok stdout)).2 = true
            ↔ writeSuccessSentinel <:+: stdout)
        ∧ (v.den ≠ 1 → ¬ ((intTrunc v : ℚ) = v)) := by
  intro symbols name addr v stdout hres
  refine ⟨?_, intTrunc_eq_trunc v, ?_, ?_⟩
  · unfold write_variable
    rw [hres]
    rfl
  · unfold write_variable
    rw [hres]
    simp [genWriteScript]
  · intro hden hc
    have : v.den = 1 := by
      rw [← hc]
      exact Rat.den_intCast (intTrunc v)
    exact hden this

/-- C10 witness: writing -3.5 to a resolved variable generates a script
writing -3 (truncation toward zero), and the sentinel in stdout makes the
call return `True`. -/
theorem c10_witness :
    (write_variable true [("debug_bypass", 54208)] "debug_bypass"
        (mkRat (-7) 2) (.ok "WRITE:SUCCESS".toList)).1
        = some ⟨54208, -3⟩
      ∧ (write_variable true [("debug_bypass", 54208)] "debug_bypass"
          (mkRat (-7) 2) (.ok "WRITE:SUCCESS".toList)).2 = true := by
  have h := c10_write_truncates [("debug_bypass", 54208)] "debug_bypass"
    54208 (mkRat (-7) 2) "WRITE:SUCCESS".toList (by decide)
  refine ⟨?_, (h.2.2.1).mpr (by decide)⟩
  rw [h.1]
  have : intTrunc (mkRat (-7) 2) = -3 := by decide
  rw [this]

end XDS110
